import Mathlib

/-!
Shallow embedding of the Lata Dairy Management backend (`backend/server.py`).

The MongoDB collections are modelled as Lean lists of structures; monetary
values (Python floats) are modelled as exact rationals; dates are the
`YYYY-MM-DD` strings the code stores, compared lexicographically exactly as
MongoDB compares them.  Each HTTP handler that the claims mention becomes a
pure function from the database state (plus the handler's parameters and the
values the code draws from the environment: fresh UUIDs, the current time,
the e-mail provider outcome) to an `Except` of the new state.
-/

namespace Dairy

/-- Error taxonomy of the handlers: 404 for missing ids, 500 for the e-mail
provider being unconfigured or failing. -/
inductive Err where
  | notFound
  | emailNotConfigured
  | emailSendFailed (msg : String)
deriving DecidableEq, Repr

/-- A sale line item (embedded value, `class SaleItem`). -/
structure SaleItem where
  product_id : String
  product_name : String
  quantity : Rat
  unit : String
  price : Rat
  total : Rat
deriving DecidableEq, Repr

/-- A customer document (`class Customer`; fields not used by any handler we
model are omitted). -/
structure Customer where
  id : String
  name : String
  outstanding_balance : Rat
  credit_limit : Rat
  is_active : Bool
deriving DecidableEq, Repr

/-- A daily (credit) sale document (`class DailySale`). -/
structure DailySale where
  id : String
  customer_id : String
  customer_name : String
  date : String
  items : List SaleItem
  total_amount : Rat
  paid_amount : Rat
  is_paid : Bool
deriving DecidableEq, Repr

/-- A guest (walk-in) sale document (`class GuestSale`). -/
structure GuestSale where
  id : String
  guest_name : String
  guest_phone : String
  date : String
  items : List SaleItem
  total_amount : Rat
  payment_method : String
deriving DecidableEq, Repr

/-- A monthly bill document (`class MonthlyBill`). -/
structure MonthlyBill where
  id : String
  customer_id : String
  customer_name : String
  month : Nat
  year : Nat
  total_sales : Rat
  total_paid : Rat
  balance_due : Rat
  sales_count : Nat
  generated_at : String
  email_sent : Bool
deriving DecidableEq, Repr

/-- The database: the four collections the claims touch. -/
structure DB where
  customers : List Customer
  daily_sales : List DailySale
  guest_sales : List GuestSale
  monthly_bills : List MonthlyBill
deriving DecidableEq, Repr

/-- Request body of `POST /api/daily-sales` (`class DailySaleCreate`). -/
structure DailySaleCreate where
  customer_id : String
  date : String
  items : List SaleItem
  paid_amount : Rat
deriving DecidableEq, Repr

/-- Request body of `POST /api/guest-sales` (`class GuestSaleCreate`). -/
structure GuestSaleCreate where
  guest_name : String
  guest_phone : String
  items : List SaleItem
  payment_method : String
deriving DecidableEq, Repr

/-- Mongo's `update_one`: rewrite the first element matching `p` with `f`,
leave everything else alone.  (`delete_one` is `List.eraseP`, `find_one` is
`List.find?`, `insert_one` appends.) -/
def updateFirst (p : α → Bool) (f : α → α) : List α → List α
  | [] => []
  | a :: l => if p a then f a :: l else a :: updateFirst p f l

/-- Handler `create_daily_sale` (`POST /api/daily-sales`): look the customer
up (404 when absent), total the items, build the sale with
`is_paid = paid_amount >= total_amount`, `$inc` the customer's
`outstanding_balance` by `total_amount - paid_amount`, insert the sale.
`newId` stands for the `uuid4` the model generates. -/
def create_daily_sale (newId : String) (data : DailySaleCreate) (db : DB) :
    Except Err (DB × DailySale) :=
  match db.customers.find? (fun c => c.id == data.customer_id) with
  | none => .error .notFound
  | some customer =>
    let total_amount : Rat := (data.items.map SaleItem.total).sum
    let sale : DailySale :=
      { id := newId
        customer_id := data.customer_id
        customer_name := customer.name
        date := data.date
        items := data.items
        total_amount := total_amount
        paid_amount := data.paid_amount
        is_paid := decide (total_amount ≤ data.paid_amount) }
    let balance_change := total_amount - data.paid_amount
    let customers :=
      updateFirst (fun c => c.id == data.customer_id)
        (fun c => { c with outstanding_balance := c.outstanding_balance + balance_change })
        db.customers
    .ok ({ db with customers := customers, daily_sales := db.daily_sales ++ [sale] }, sale)

/-- Handler `update_sale_payment` (`PUT /api/daily-sales/{id}/payment`): look
the sale up (404 when absent), set its `paid_amount` and recomputed `is_paid`,
`$inc` the owning customer's balance by `old_paid - new_paid`. -/
def update_sale_payment (sale_id : String) (paid_amount : Rat) (db : DB) :
    Except Err DB :=
  match db.daily_sales.find? (fun s => s.id == sale_id) with
  | none => .error .notFound
  | some sale =>
    let old_paid := sale.paid_amount
    let new_paid := paid_amount
    let balance_change := old_paid - new_paid
    let is_paid := decide (sale.total_amount ≤ new_paid)
    let daily_sales :=
      updateFirst (fun s => s.id == sale_id)
        (fun s => { s with paid_amount := new_paid, is_paid := is_paid })
        db.daily_sales
    let customers :=
      updateFirst (fun c => c.id == sale.customer_id)
        (fun c => { c with outstanding_balance := c.outstanding_balance + balance_change })
        db.customers
    .ok { db with daily_sales := daily_sales, customers := customers }

/-- Handler `delete_daily_sale` (`DELETE /api/daily-sales/{id}`): look the
sale up (404 when absent), `$inc` the owning customer's balance by
`-(total_amount - paid_amount)`, delete the sale. -/
def delete_daily_sale (sale_id : String) (db : DB) : Except Err DB :=
  match db.daily_sales.find? (fun s => s.id == sale_id) with
  | none => .error .notFound
  | some sale =>
    let balance_change := -(sale.total_amount - sale.paid_amount)
    let customers :=
      updateFirst (fun c => c.id == sale.customer_id)
        (fun c => { c with outstanding_balance := c.outstanding_balance + balance_change })
        db.customers
    .ok { db with customers := customers,
                  daily_sales := db.daily_sales.eraseP (fun s => s.id == sale_id) }

/-- Handler `create_guest_sale` (`POST /api/guest-sales`): total the items,
stamp today's date, insert into `guest_sales` only.  `newId` stands for the
generated `uuid4`, `today` for `datetime.now(utc)` formatted `YYYY-MM-DD`. -/
def create_guest_sale (newId today : String) (data : GuestSaleCreate) (db : DB) :
    DB × GuestSale :=
  let total_amount : Rat := (data.items.map SaleItem.total).sum
  let sale : GuestSale :=
    { id := newId
      guest_name := data.guest_name
      guest_phone := data.guest_phone
      date := today
      items := data.items
      total_amount := total_amount
      payment_method := data.payment_method }
  ({ db with guest_sales := db.guest_sales ++ [sale] }, sale)

/-- Zero-padded two-digit rendering, Python's `f"{n:02d}"` for `0 ≤ n`. -/
def pad2 (n : Nat) : String :=
  if n < 10 then "0" ++ toString n else toString n

/-- The window's inclusive start date, `f"{year}-{month:02d}-01"`. -/
def monthStart (month year : Nat) : String :=
  toString year ++ "-" ++ pad2 month ++ "-01"

/-- The window's exclusive end date: `f"{year+1}-01-01"` when `month == 12`,
else `f"{year}-{month+1:02d}-01"`. -/
def monthEnd (month year : Nat) : String :=
  if month == 12 then toString (year + 1) ++ "-01-01"
  else toString year ++ "-" ++ pad2 (month + 1) ++ "-01"

/-- Lexicographic strict comparison of character lists, the order MongoDB
(and Python) applies to the `YYYY-MM-DD` date strings. -/
def chLt : List Char → List Char → Bool
  | [], [] => false
  | [], _ :: _ => true
  | _ :: _, [] => false
  | a :: as, b :: bs => if a = b then chLt as bs else decide (a < b)

/-- Strict lexicographic order on date strings (`$lt`). -/
def strLt (a b : String) : Bool := chLt a.data b.data

/-- Non-strict lexicographic order on date strings (`$gte`, flipped). -/
def strLe (a b : String) : Bool := strLt a b || a == b

/-- The Mongo query `{"customer_id": cid, "date": {"$gte": s, "$lt": e}}`
over `daily_sales`. -/
def salesInWindow (ds : List DailySale) (cid s e : String) : List DailySale :=
  ds.filter (fun x => x.customer_id == cid && strLe s x.date && strLt x.date e)

/-- The `bill_data` dictionary built for one customer in
`generate_monthly_bills`, with identifier `bid`. -/
def mkBillData (c : Customer) (month year : Nat) (now : String)
    (sales : List DailySale) (bid : String) : MonthlyBill :=
  { id := bid
    customer_id := c.id
    customer_name := c.name
    month := month
    year := year
    total_sales := (sales.map DailySale.total_amount).sum
    total_paid := (sales.map DailySale.paid_amount).sum
    balance_due := (sales.map DailySale.total_amount).sum - (sales.map DailySale.paid_amount).sum
    sales_count := sales.length
    generated_at := now
    email_sent := false }

/-- The Mongo filter `{"customer_id": cid, "month": m, "year": y}` over
`monthly_bills`. -/
def billKey (cid : String) (m y : Nat) (b : MonthlyBill) : Bool :=
  b.customer_id == cid && b.month == m && b.year == y

/-- The customer loop of `generate_monthly_bills`: walk the active customers,
skip those with no sales in the window, upsert a bill for the rest.  `bills`
is the `monthly_bills` collection being mutated, `k` counts the fresh UUIDs
(`fresh k` is the `k`-th `uuid4` drawn) consumed by inserts so far.  Returns
the final collection and the `bills_generated` response list. -/
def genLoop (month year : Nat) (now : String) (fresh : Nat → String)
    (ds : List DailySale) (s e : String) :
    List Customer → List MonthlyBill → Nat → List MonthlyBill × List MonthlyBill
  | [], bills, _ => (bills, [])
  | c :: cs, bills, k =>
    let sales := salesInWindow ds c.id s e
    if sales.isEmpty then genLoop month year now fresh ds s e cs bills k
    else
      match bills.find? (billKey c.id month year) with
      | some existing =>
        let bills' :=
          updateFirst (billKey c.id month year)
            (fun b => mkBillData c month year now sales b.id) bills
        let rest := genLoop month year now fresh ds s e cs bills' k
        (rest.1, mkBillData c month year now sales existing.id :: rest.2)
      | none =>
        let gen := mkBillData c month year now sales (fresh k)
        let rest := genLoop month year now fresh ds s e cs (bills ++ [gen]) (k + 1)
        (rest.1, gen :: rest.2)

/-- Handler `generate_monthly_bills` (`POST /api/billing/generate`): compute
the `[month-01, next-month-01)` window, loop over the active customers.
`now` stands for the `generated_at` timestamp, `fresh` for the stream of
`uuid4` identifiers. -/
def generate_monthly_bills (month year : Nat) (now : String) (fresh : Nat → String)
    (db : DB) : DB × List MonthlyBill :=
  let customers := db.customers.filter (fun c => c.is_active)
  let s := monthStart month year
  let e := monthEnd month year
  let r := genLoop month year now fresh db.daily_sales s e customers db.monthly_bills 0
  ({ db with monthly_bills := r.1 }, r.2)

/-- One data point of the dashboard sales chart. -/
structure ChartPoint where
  date : String
  day : String
  revenue : Rat
  transactions : Nat
deriving DecidableEq, Repr

/-- The chart point built for the datetime `t` (modelled as an integer count
of days, all loop datetimes sharing the time of day of `now`): `fmt` is
`strftime("%Y-%m-%d")`, `wd` is `strftime("%a")`. -/
def mkChartPoint (fmt wd : Int → String) (daily : List DailySale)
    (guest : List GuestSale) (t : Int) : ChartPoint :=
  let daily_t := daily.filter (fun x => x.date == fmt t)
  let guest_t := guest.filter (fun x => x.date == fmt t)
  { date := fmt t
    day := wd t
    revenue := (daily_t.map DailySale.total_amount).sum + (guest_t.map GuestSale.total_amount).sum
    transactions := daily_t.length + guest_t.length }

/-- The `while current <= end_date` loop of `get_sales_chart`, one day per
iteration. -/
def chartFrom (fmt wd : Int → String) (daily : List DailySale)
    (guest : List GuestSale) (current endd : Int) : List ChartPoint :=
  if current ≤ endd then
    mkChartPoint fmt wd daily guest current ::
      chartFrom fmt wd daily guest (current + 1) endd
  else []
termination_by (endd + 1 - current).toNat
decreasing_by omega

/-- Handler `get_sales_chart` (`GET /api/dashboard/sales-chart`): iterate
from `today - days` to `today` inclusive.  `today` is
`datetime.now(timezone.utc)` as an integer day count. -/
def get_sales_chart (days : Nat) (today : Int) (fmt wd : Int → String)
    (daily : List DailySale) (guest : List GuestSale) : List ChartPoint :=
  chartFrom fmt wd daily guest (today - days) today

/-- One row of the `top-customers` response. -/
structure TopCustomerRow where
  customer_id : String
  customer_name : String
  total_purchases : Rat
  purchase_count : Nat
deriving DecidableEq, Repr

/-- One row of the `top-products` response. -/
structure TopProductRow where
  product_id : String
  product_name : String
  total_quantity : Rat
  total_revenue : Rat
deriving DecidableEq, Repr

/-- Group keys in order of first appearance (`seen` accumulates the keys
already emitted), as Mongo's `$group` sees the matched documents stream. -/
def groupKeysAux (seen : List String) : List String → List String
  | [] => []
  | x :: xs =>
    if seen.contains x then groupKeysAux seen xs
    else x :: groupKeysAux (x :: seen) xs

/-- The distinct group keys of the matched documents, in order of first
appearance. -/
def groupKeys (l : List String) : List String := groupKeysAux [] l

/-- The Mongo date `$match` of the dashboard top-N pipelines. -/
def matchWindow (ds : List DailySale) (s e : String) : List DailySale :=
  ds.filter (fun x => strLe s x.date && strLt x.date e)

/-- The `$group` stage of `get_top_customers`: key `$customer_id`,
`$first` name, `$sum` of `total_amount`, document count. -/
def custGroups (ds : List DailySale) (s e : String) : List TopCustomerRow :=
  let matched := matchWindow ds s e
  (groupKeys (matched.map DailySale.customer_id)).map fun k =>
    let grp := matched.filter (fun x => x.customer_id == k)
    { customer_id := k
      customer_name := ((grp.map DailySale.customer_name).headI)
      total_purchases := (grp.map DailySale.total_amount).sum
      purchase_count := grp.length }

/-- Handler `get_top_customers` (`GET /api/dashboard/top-customers`): match
the current-month window, group by customer, `$sort` by `total_purchases`
descending, `$limit`. -/
def get_top_customers (ds : List DailySale) (s e : String) (limit : Nat) :
    List TopCustomerRow :=
  ((custGroups ds s e).mergeSort
    (fun a b => decide (b.total_purchases ≤ a.total_purchases))).take limit

/-- The `$unwind`/`$group` stages of `get_top_products`: flatten items, key
`$items.product_id`, `$first` name, `$sum` quantity and revenue. -/
def prodGroups (ds : List DailySale) (s e : String) : List TopProductRow :=
  let unwound := (matchWindow ds s e).flatMap DailySale.items
  (groupKeys (unwound.map SaleItem.product_id)).map fun k =>
    let grp := unwound.filter (fun x => x.product_id == k)
    { product_id := k
      product_name := ((grp.map SaleItem.product_name).headI)
      total_quantity := (grp.map SaleItem.quantity).sum
      total_revenue := (grp.map SaleItem.total).sum }

/-- Handler `get_top_products` (`GET /api/dashboard/top-products`). -/
def get_top_products (ds : List DailySale) (s e : String) (limit : Nat) :
    List TopProductRow :=
  ((prodGroups ds s e).mergeSort
    (fun a b => decide (b.total_revenue ≤ a.total_revenue))).take limit

/-- Handler `send_bill_email` (`POST /api/billing/send-email`): look the bill
up (404 when absent), 500 when the provider key is missing, attempt delivery
(`outcome` stands for the provider call: `Except.ok` carries the provider
message id, `Except.error` the raised exception's message), and only on
success `$set` the bill's `email_sent` to true. -/
def send_bill_email (bill_id : String) (apiKey : Bool)
    (outcome : Except String String) (db : DB) : Except Err (DB × String) :=
  match db.monthly_bills.find? (fun b => b.id == bill_id) with
  | none => .error .notFound
  | some _ =>
    if !apiKey then .error .emailNotConfigured
    else
      match outcome with
      | .error e => .error (.emailSendFailed e)
      | .ok mid =>
        let bills :=
          updateFirst (fun b => b.id == bill_id)
            (fun b => { b with email_sent := true }) db.monthly_bills
        .ok ({ db with monthly_bills := bills }, mid)

/-- A sale's contribution to its customer's debt: `total_amount - paid_amount`. -/
def saleOutstanding (s : DailySale) : Rat := s.total_amount - s.paid_amount

/-- The sum, over a customer's daily sales, of `total_amount - paid_amount`. -/
def owes (ds : List DailySale) (cid : String) : Rat :=
  ((ds.filter (fun s => s.customer_id == cid)).map saleOutstanding).sum

/-- The central consistency invariant: every customer's stored
`outstanding_balance` equals the sum over that customer's remaining daily
sales of `total_amount - paid_amount`. -/
def balanceInvariant (db : DB) : Prop :=
  ∀ c ∈ db.customers, c.outstanding_balance = owes db.daily_sales c.id

/-- Well-formedness of the store: document identifiers are unique within the
`customers` and `daily_sales` collections (they are generated by `uuid4`). -/
def WF (db : DB) : Prop :=
  (db.customers.map Customer.id).Nodup ∧ (db.daily_sales.map DailySale.id).Nodup

/-- One successful sale-mutating operation: a create (with a fresh sale id,
as `uuid4` guarantees), a payment amendment, or a deletion. -/
inductive Step : DB → DB → Prop where
  | create (newId : String) (data : DailySaleCreate) (db db' : DB) (sale : DailySale)
      (hfresh : newId ∉ db.daily_sales.map DailySale.id)
      (h : create_daily_sale newId data db = .ok (db', sale)) : Step db db'
  | pay (sale_id : String) (amt : Rat) (db db' : DB)
      (h : update_sale_payment sale_id amt db = .ok db') : Step db db'
  | del (sale_id : String) (db db' : DB)
      (h : delete_daily_sale sale_id db = .ok db') : Step db db'

/-- A finite sequence of successful create / amend-payment / delete
operations. -/
def Reaches : DB → DB → Prop := Relation.ReflTransGen Step

end Dairy

namespace Dairy

/-! ### Helper lemmas on the store primitives -/

theorem updateFirst_of_find?_eq_none {p : α → Bool} {f : α → α} {l : List α}
    (h : l.find? p = none) : updateFirst p f l = l := by
  induction l with
  | nil => rfl
  | cons a l ih =>
    rw [List.find?_cons] at h
    by_cases ha : p a
    · simp [ha] at h
    · simp only [updateFirst, if_neg ha]
      simp only [ha, cond_false] at h
      rw [ih h]

theorem find?_some_decomp {p : α → Bool} {l : List α} {a : α}
    (h : l.find? p = some a) :
    ∃ l₁ l₂, l = l₁ ++ a :: l₂ ∧ (∀ b ∈ l₁, p b = false) ∧ p a = true := by
  induction l with
  | nil => simp at h
  | cons x l ih =>
    rw [List.find?_cons] at h
    by_cases hx : p x
    · simp only [hx, cond_true, Option.some.injEq] at h
      subst h
      exact ⟨[], l, rfl, by simp, hx⟩
    · simp only [hx, cond_false] at h
      obtain ⟨l₁, l₂, rfl, hl₁, ha⟩ := ih h
      refine ⟨x :: l₁, l₂, rfl, ?_, ha⟩
      intro b hb
      rcases List.mem_cons.mp hb with rfl | hb
      · simpa using hx
      · exact hl₁ b hb

theorem updateFirst_append_cons {p : α → Bool} (f : α → α) {l₁ : List α} (a : α)
    (l₂ : List α) (h : ∀ b ∈ l₁, p b = false) (ha : p a = true) :
    updateFirst p f (l₁ ++ a :: l₂) = l₁ ++ f a :: l₂ := by
  induction l₁ with
  | nil => simp [updateFirst, ha]
  | cons x l₁ ih =>
    have hx : p x = false := h x (by simp)
    simp only [List.cons_append, updateFirst, hx, Bool.false_eq_true, if_false,
      List.append_eq]
    rw [ih (fun b hb => h b (by simp [hb]))]

theorem eraseP_append_cons {p : α → Bool} {l₁ : List α} (a : α) (l₂ : List α)
    (h : ∀ b ∈ l₁, p b = false) (ha : p a = true) :
    (l₁ ++ a :: l₂).eraseP p = l₁ ++ l₂ := by
  induction l₁ with
  | nil => simp [List.eraseP_cons, ha]
  | cons x l₁ ih =>
    have hx : p x = false := h x (by simp)
    simp only [List.cons_append, List.eraseP_cons, hx, cond_false]
    rw [ih (fun b hb => h b (by simp [hb]))]

theorem map_updateFirst_of_eq {p : α → Bool} {f : α → α} {g : α → β}
    (h : ∀ a, p a = true → g (f a) = g a) (l : List α) :
    (updateFirst p f l).map g = l.map g := by
  induction l with
  | nil => rfl
  | cons a l ih =>
    by_cases ha : p a
    · simp [updateFirst, ha, h a ha]
    · simp [updateFirst, ha, ih]

theorem updateFirst_congr_id {p : α → Bool} {f : α → α}
    (h : ∀ a, p a = true → f a = a) (l : List α) :
    updateFirst p f l = l := by
  induction l with
  | nil => rfl
  | cons a l ih =>
    by_cases ha : p a
    · simp [updateFirst, ha, h a ha]
    · simp [updateFirst, ha, ih]

theorem filter_updateFirst_frame {p q : α → Bool} {f : α → α}
    (h : ∀ a, p a = true → (q a = false ∧ q (f a) = false)) (l : List α) :
    (updateFirst p f l).filter q = l.filter q := by
  induction l with
  | nil => rfl
  | cons a l ih =>
    by_cases ha : p a
    · obtain ⟨h1, h2⟩ := h a ha
      simp [updateFirst, ha, List.filter_cons, h1, h2]
    · simp only [updateFirst, ha, Bool.false_eq_true, if_false]
      simp [List.filter_cons, ih]

theorem find?_updateFirst_frame {p q : α → Bool} {f : α → α}
    (h : ∀ a, p a = true → (q a = false ∧ q (f a) = false)) (l : List α) :
    (updateFirst p f l).find? q = l.find? q := by
  induction l with
  | nil => rfl
  | cons a l ih =>
    by_cases ha : p a
    · obtain ⟨h1, h2⟩ := h a ha
      simp [updateFirst, ha, List.find?_cons, h1, h2]
    · simp only [updateFirst, ha, Bool.false_eq_true, if_false]
      simp [List.find?_cons, ih]

/-! ### The outstanding-balance invariant -/

theorem owes_append (ds₁ ds₂ : List DailySale) (cid : String) :
    owes (ds₁ ++ ds₂) cid = owes ds₁ cid + owes ds₂ cid := by
  simp [owes, List.filter_append]

theorem owes_cons (s : DailySale) (ds : List DailySale) (cid : String) :
    owes (s :: ds) cid =
      (if s.customer_id = cid then saleOutstanding s else 0) + owes ds cid := by
  by_cases h : s.customer_id = cid <;> simp [owes, List.filter_cons, h]

theorem owes_nil (cid : String) : owes [] cid = 0 := rfl

/-- Transferring the invariant across one balance `$inc`: if the debt sums
move by `δ` exactly at customer id `cid`, then incrementing the first (by
uniqueness: the only) customer holding `cid` by `δ` restores the invariant. -/
theorem inv_updateFirst_inc {ds ds' : List DailySale} {cid : String} {δ : Rat}
    {customers : List Customer}
    (how : ∀ x : String, owes ds' x = owes ds x + (if x = cid then δ else 0))
    (nd : (customers.map Customer.id).Nodup)
    (inv : ∀ c ∈ customers, c.outstanding_balance = owes ds c.id) :
    ∀ c ∈ updateFirst (fun c => c.id == cid)
        (fun c => { c with outstanding_balance := c.outstanding_balance + δ }) customers,
      c.outstanding_balance = owes ds' c.id := by
  induction customers with
  | nil => intro c hc; simp [updateFirst] at hc
  | cons a l ih =>
    simp only [List.map_cons, List.nodup_cons, List.mem_map] at nd
    obtain ⟨hnotin, ndl⟩ := nd
    have inva := inv a (by simp)
    have invl : ∀ c ∈ l, c.outstanding_balance = owes ds c.id :=
      fun c hc => inv c (by simp [hc])
    by_cases ha : a.id = cid
    · intro c hc
      simp only [updateFirst, ha, beq_self_eq_true, if_true, List.mem_cons] at hc
      rcases hc with rfl | hc
      · rw [ha] at inva
        show a.outstanding_balance + δ = owes ds' cid
        rw [how cid, if_pos rfl, inva]
      · have hne : c.id ≠ cid := by
          intro hc'
          exact hnotin ⟨c, hc, by rw [hc', ← ha]⟩
        rw [how c.id, if_neg hne, add_zero]
        exact invl c hc
    · intro c hc
      have hbeq : (a.id == cid) = false := beq_eq_false_iff_ne.mpr ha
      simp only [updateFirst, hbeq, Bool.false_eq_true, if_false, List.mem_cons] at hc
      rcases hc with rfl | hc
      · rw [how c.id, if_neg ha, add_zero]
        exact inva
      · exact ih ndl invl c hc

/-- Successful sale creation preserves well-formedness and the invariant,
provided the generated sale id is fresh. -/
theorem create_preserves {newId : String} {data : DailySaleCreate} {db db' : DB}
    {sale : DailySale}
    (h : create_daily_sale newId data db = .ok (db', sale))
    (hfresh : newId ∉ db.daily_sales.map DailySale.id)
    (hwf : WF db) (hinv : balanceInvariant db) : WF db' ∧ balanceInvariant db' := by
  unfold create_daily_sale at h
  cases hfind : db.customers.find? (fun c => c.id == data.customer_id) with
  | none => rw [hfind] at h; exact absurd h (by simp)
  | some customer =>
    rw [hfind] at h
    simp only [Except.ok.injEq, Prod.mk.injEq] at h
    obtain ⟨hdb, hsale⟩ := h
    subst hdb
    constructor
    · constructor
      · simp only [DB.customers]
        rw [map_updateFirst_of_eq]
        · exact hwf.1
        · exact fun a _ => rfl
      · simp only [DB.daily_sales, List.map_append, List.map_cons, List.map_nil]
        simp only [List.nodup_append, List.nodup_cons, List.nodup_nil]
        refine ⟨hwf.2, by simp, ?_⟩
        intro x hx
        simp only [List.mem_singleton]
        intro hxe
        subst hxe
        exact hfresh hx
    · intro c hc
      simp only [DB.customers, DB.daily_sales] at hc ⊢
      refine inv_updateFirst_inc ?_ hwf.1 hinv c hc
      intro x
      rw [owes_append, owes_cons, owes_nil]
      by_cases hx : x = data.customer_id
      · simp [hx, saleOutstanding]
      · rw [if_neg fun hh => hx hh.symm, if_neg hx]
        simp

/-- Successful payment amendment preserves well-formedness and the
invariant. -/
theorem pay_preserves {sale_id : String} {amt : Rat} {db db' : DB}
    (h : update_sale_payment sale_id amt db = .ok db')
    (hwf : WF db) (hinv : balanceInvariant db) : WF db' ∧ balanceInvariant db' := by
  unfold update_sale_payment at h
  cases hfind : db.daily_sales.find? (fun s => s.id == sale_id) with
  | none => rw [hfind] at h; exact absurd h (by simp)
  | some sale =>
    rw [hfind] at h
    simp only [Except.ok.injEq] at h
    subst h
    obtain ⟨l₁, l₂, hds, hl₁, hp⟩ := find?_some_decomp hfind
    have hupd : updateFirst (fun s => s.id == sale_id)
        (fun s => { s with paid_amount := amt,
                           is_paid := decide (sale.total_amount ≤ amt) }) db.daily_sales
        = l₁ ++ { sale with paid_amount := amt,
                            is_paid := decide (sale.total_amount ≤ amt) } :: l₂ := by
      rw [hds]; exact updateFirst_append_cons _ _ _ hl₁ hp
    constructor
    · constructor
      · simp only [DB.customers]
        rw [map_updateFirst_of_eq]
        · exact hwf.1
        · exact fun a _ => rfl
      · simp only [DB.daily_sales]
        rw [map_updateFirst_of_eq]
        · exact hwf.2
        · exact fun a _ => rfl
    · intro c hc
      simp only [DB.customers, DB.daily_sales] at hc ⊢
      rw [hupd]
      refine inv_updateFirst_inc ?_ hwf.1 hinv c hc
      intro x
      conv_rhs => rw [hds]
      rw [owes_append, owes_append, owes_cons, owes_cons]
      by_cases hx : sale.customer_id = x
      · rw [if_pos hx, if_pos hx, if_pos (hx.symm)]
        simp only [saleOutstanding]
        ring
      · rw [if_neg hx, if_neg hx, if_neg fun hh => hx hh.symm]
        ring

/-- Successful sale deletion preserves well-formedness and the invariant. -/
theorem delete_preserves {sale_id : String} {db db' : DB}
    (h : delete_daily_sale sale_id db = .ok db')
    (hwf : WF db) (hinv : balanceInvariant db) : WF db' ∧ balanceInvariant db' := by
  unfold delete_daily_sale at h
  cases hfind : db.daily_sales.find? (fun s => s.id == sale_id) with
  | none => rw [hfind] at h; exact absurd h (by simp)
  | some sale =>
    rw [hfind] at h
    simp only [Except.ok.injEq] at h
    subst h
    obtain ⟨l₁, l₂, hds, hl₁, hp⟩ := find?_some_decomp hfind
    have herase : db.daily_sales.eraseP (fun s => s.id == sale_id) = l₁ ++ l₂ := by
      rw [hds]; exact eraseP_append_cons _ _ hl₁ hp
    constructor
    · constructor
      · simp only [DB.customers]
        rw [map_updateFirst_of_eq]
        · exact hwf.1
        · exact fun a _ => rfl
      · simp only [DB.daily_sales]
        exact hwf.2.sublist ((List.eraseP_sublist _).map _)
    · intro c hc
      simp only [DB.customers, DB.daily_sales] at hc ⊢
      rw [herase]
      refine inv_updateFirst_inc ?_ hwf.1 hinv c hc
      intro x
      conv_rhs => rw [hds]
      rw [owes_append, owes_append, owes_cons]
      by_cases hx : sale.customer_id = x
      · rw [if_pos hx, if_pos (hx.symm)]
        simp only [saleOutstanding]
        ring
      · rw [if_neg hx, if_neg fun hh => hx hh.symm]
        ring

/-- One successful operation preserves well-formedness and the invariant. -/
theorem step_preserves {db db' : DB} (hs : Step db db')
    (hwf : WF db) (hinv : balanceInvariant db) : WF db' ∧ balanceInvariant db' := by
  cases hs with
  | create newId data db db' sale hfresh h => exact create_preserves h hfresh hwf hinv
  | pay sale_id amt db db' h => exact pay_preserves h hwf hinv
  | del sale_id db db' h => exact delete_preserves h hwf hinv

/-- Any finite sequence of successful operations preserves well-formedness
and the invariant. -/
theorem reaches_preserves {db db' : DB} (hr : Reaches db db')
    (hwf : WF db) (hinv : balanceInvariant db) : WF db' ∧ balanceInvariant db' := by
  have hr' : Relation.ReflTransGen Step db db' := hr
  clear hr
  induction hr' with
  | refl => exact ⟨hwf, hinv⟩
  | tail _ hstep ih => exact step_preserves hstep ih.1 ih.2

theorem find?_append_cons {p : α → Bool} {l₁ : List α} (a : α) (l₂ : List α)
    (h : ∀ b ∈ l₁, p b = false) (ha : p a = true) :
    (l₁ ++ a :: l₂).find? p = some a := by
  induction l₁ with
  | nil => simp [List.find?_cons, ha]
  | cons x l₁ ih =>
    have hx : p x = false := h x (by simp)
    simp only [List.cons_append, List.find?_cons, hx, cond_false]
    exact ih (fun b hb => h b (by simp [hb]))

theorem find?_updateFirst_hit {p : α → Bool} {f : α → α} {l : List α} {a : α}
    (h : l.find? p = some a) (hfa : p (f a) = true) :
    (updateFirst p f l).find? p = some (f a) := by
  obtain ⟨l₁, l₂, rfl, hl₁, hp⟩ := find?_some_decomp h
  rw [updateFirst_append_cons _ _ _ hl₁ hp]
  exact find?_append_cons _ _ hl₁ hfa

theorem updateFirst_updateFirst {p : α → Bool} {f g : α → α}
    (hf : ∀ a, p a = true → p (f a) = true) (l : List α) :
    updateFirst p g (updateFirst p f l) = updateFirst p (fun a => g (f a)) l := by
  induction l with
  | nil => rfl
  | cons a l ih =>
    by_cases ha : p a
    · simp [updateFirst, ha, hf a ha]
    · simp [updateFirst, ha, ih]

/-- Claim C1: for every customer, after any finite sequence of successful
create-sale, amend-payment and delete-sale operations starting from a
well-formed state where the invariant holds, the customer's
`outstanding_balance` equals the sum over that customer's remaining daily
sales of `total_amount - paid_amount`. -/
theorem claim_balance_invariant (db db' : DB)
    (hwf : WF db) (hinv : balanceInvariant db) (hr : Reaches db db') :
    ∀ c ∈ db'.customers,
      c.outstanding_balance =
        ((db'.daily_sales.filter (fun s => s.customer_id == c.id)).map
          (fun s => s.total_amount - s.paid_amount)).sum :=
  (reaches_preserves hr hwf hinv).2

/-- Witness for C1: one customer, one concrete successful sale creation;
the customer's stored balance of 40 equals the debt sum of the single
remaining sale. -/
theorem claim_balance_invariant_witness :
    (Customer.mk "c1" "Asha" 40 5000 true).outstanding_balance =
      (((DB.mk [Customer.mk "c1" "Asha" 40 5000 true]
          [DailySale.mk "s1" "c1" "Asha" "2025-01-05"
            [SaleItem.mk "p1" "Milk" 2 "liter" 50 100] 100 60 false] [] []).daily_sales.filter
        (fun s => s.customer_id == (Customer.mk "c1" "Asha" 40 5000 true).id)).map
          (fun s => s.total_amount - s.paid_amount)).sum :=
  claim_balance_invariant
    (DB.mk [Customer.mk "c1" "Asha" 0 5000 true] [] [] [])
    (DB.mk [Customer.mk "c1" "Asha" 40 5000 true]
      [DailySale.mk "s1" "c1" "Asha" "2025-01-05"
        [SaleItem.mk "p1" "Milk" 2 "liter" 50 100] 100 60 false] [] [])
    (by constructor <;> decide)
    (by intro c hc; fin_cases hc; rfl)
    (Relation.ReflTransGen.single
      (Step.create "s1"
        (DailySaleCreate.mk "c1" "2025-01-05"
          [SaleItem.mk "p1" "Milk" 2 "liter" 50 100] 60)
        (DB.mk [Customer.mk "c1" "Asha" 0 5000 true] [] [] [])
        (DB.mk [Customer.mk "c1" "Asha" 40 5000 true]
          [DailySale.mk "s1" "c1" "Asha" "2025-01-05"
            [SaleItem.mk "p1" "Milk" 2 "liter" 50 100] 100 60 false] [] [])
        (DailySale.mk "s1" "c1" "Asha" "2025-01-05"
          [SaleItem.mk "p1" "Milk" 2 "liter" 50 100] 100 60 false)
        (by simp)
        (by simp [create_daily_sale, updateFirst, List.find?]
            norm_num)))
    (Customer.mk "c1" "Asha" 40 5000 true) (List.Mem.head _)

/-- Claim C2: sale creation totals the items, derives `is_paid`, adds exactly
`total_amount - paid_amount` to the resolved customer's balance, appends the
sale, and fails with NotFound when the customer id does not resolve; in
particular items `[{qty 2, price 50, total 100}]` with `paid_amount 60`
yield `total_amount = 100`, `is_paid = false` and a balance increase of
exactly `40`. -/
theorem create_daily_sale_spec (newId : String) (data : DailySaleCreate) (db : DB) :
    (db.customers.find? (fun c => c.id == data.customer_id) = none →
      create_daily_sale newId data db = .error .notFound) ∧
    (∀ cust, db.customers.find? (fun c => c.id == data.customer_id) = some cust →
      ∃ db' sale, create_daily_sale newId data db = .ok (db', sale) ∧
        sale.total_amount = (data.items.map SaleItem.total).sum ∧
        sale.paid_amount = data.paid_amount ∧
        (sale.is_paid = true ↔ sale.total_amount ≤ data.paid_amount) ∧
        db'.customers.find? (fun c => c.id == data.customer_id) =
          some { cust with outstanding_balance :=
                   cust.outstanding_balance + (sale.total_amount - data.paid_amount) } ∧
        db'.daily_sales = db.daily_sales ++ [sale]) ∧
    (∀ newId2 cid date pid pname u (db2 : DB) cust,
      db2.customers.find? (fun c => c.id == cid) = some cust →
      ∃ db' sale,
        create_daily_sale newId2
          (DailySaleCreate.mk cid date [SaleItem.mk pid pname 2 u 50 100] 60) db2 =
            .ok (db', sale) ∧
        sale.total_amount = 100 ∧ sale.is_paid = false ∧
        db'.customers.find? (fun c => c.id == cid) =
          some { cust with outstanding_balance := cust.outstanding_balance + 40 }) := by
  refine ⟨?_, ?_, ?_⟩
  · intro h
    unfold create_daily_sale
    rw [h]
  · intro cust hfind
    unfold create_daily_sale
    rw [hfind]
    refine ⟨_, _, rfl, rfl, rfl, by simp, ?_, rfl⟩
    refine find?_updateFirst_hit hfind ?_
    simpa using List.find?_some hfind
  · intro newId2 cid date pid pname u db2 cust hfind
    unfold create_daily_sale
    rw [hfind]
    have hsum : (([SaleItem.mk pid pname 2 u 50 100] : List SaleItem).map
        SaleItem.total).sum = 100 := by simp
    refine ⟨_, _, rfl, hsum, by simp [hsum]; norm_num, ?_⟩
    have h := find?_updateFirst_hit (f := fun c =>
        { c with outstanding_balance := c.outstanding_balance +
            ((([SaleItem.mk pid pname 2 u 50 100] : List SaleItem).map
              SaleItem.total).sum - 60) }) hfind
      (by simpa using List.find?_some hfind)
    rw [h, hsum]
    norm_num

/-- Witness for C2: the claim's concrete example against a one-customer
store. -/
theorem create_daily_sale_spec_witness :
    ∃ db' sale,
      create_daily_sale "s1"
        (DailySaleCreate.mk "c1" "2025-01-10" [SaleItem.mk "p1" "Milk" 2 "liter" 50 100] 60)
        (DB.mk [Customer.mk "c1" "Asha" 7 5000 true] [] [] []) = .ok (db', sale) ∧
      sale.total_amount = 100 ∧ sale.is_paid = false ∧
      db'.customers.find? (fun c => c.id == "c1") =
        some { Customer.mk "c1" "Asha" 7 5000 true with
                 outstanding_balance :=
                   (Customer.mk "c1" "Asha" 7 5000 true).outstanding_balance + 40 } :=
  (create_daily_sale_spec "s0"
      (DailySaleCreate.mk "z" "d" [] 0)
      (DB.mk [] [] [] [])).2.2 "s1" "c1" "2025-01-10" "p1" "Milk" "liter"
    (DB.mk [Customer.mk "c1" "Asha" 7 5000 true] [] [] [])
    (Customer.mk "c1" "Asha" 7 5000 true) rfl

/-- Claim C3: amending the payment of an existing sale (for an arbitrary new
amount `amt`, unrestricted by any validation) stores `paid_amount = amt`,
recomputes `is_paid` against the sale's stored `total_amount`, and moves the
owning customer's balance by exactly `old_paid_amount - amt`; an unknown
sale id yields NotFound (the handler raises before performing any write, so
the error case carries no state change). -/
theorem update_sale_payment_spec (sale_id : String) (amt : Rat) (db : DB) :
    (db.daily_sales.find? (fun s => s.id == sale_id) = none →
      update_sale_payment sale_id amt db = .error .notFound) ∧
    (∀ sale, db.daily_sales.find? (fun s => s.id == sale_id) = some sale →
      ∃ db', update_sale_payment sale_id amt db = .ok db' ∧
        db'.daily_sales.find? (fun s => s.id == sale_id) =
          some { sale with paid_amount := amt,
                           is_paid := decide (sale.total_amount ≤ amt) } ∧
        (∀ cust, db.customers.find? (fun c => c.id == sale.customer_id) = some cust →
          db'.customers.find? (fun c => c.id == sale.customer_id) =
            some { cust with outstanding_balance :=
                     cust.outstanding_balance + (sale.paid_amount - amt) }) ∧
        db'.guest_sales = db.guest_sales ∧ db'.monthly_bills = db.monthly_bills) := by
  constructor
  · intro h
    unfold update_sale_payment
    rw [h]
  · intro sale hfind
    unfold update_sale_payment
    rw [hfind]
    refine ⟨_, rfl, ?_, ?_, rfl, rfl⟩
    · exact find?_updateFirst_hit hfind (by simpa using List.find?_some hfind)
    · intro cust hc
      exact find?_updateFirst_hit hc (by simpa using List.find?_some hc)

/-- Witness for C3: amending a 100-total, 60-paid sale to 150 (exceeding the
total: no validation restricts the amount). -/
theorem update_sale_payment_spec_witness :
    ∃ db', update_sale_payment "s1" 150
        (DB.mk [Customer.mk "c1" "Asha" 40 5000 true]
          [DailySale.mk "s1" "c1" "Asha" "2025-01-07" [] 100 60 false] [] []) = .ok db' ∧
      db'.daily_sales.find? (fun s => s.id == "s1") =
        some { DailySale.mk "s1" "c1" "Asha" "2025-01-07" [] 100 60 false with
                 paid_amount := 150,
                 is_paid := decide
                   ((DailySale.mk "s1" "c1" "Asha" "2025-01-07" [] 100 60 false).total_amount
                     ≤ 150) } ∧
      (∀ cust,
        (DB.mk [Customer.mk "c1" "Asha" 40 5000 true]
          [DailySale.mk "s1" "c1" "Asha" "2025-01-07" [] 100 60 false] [] []).customers.find?
            (fun c => c.id ==
              (DailySale.mk "s1" "c1" "Asha" "2025-01-07" [] 100 60 false).customer_id) =
          some cust →
        db'.customers.find?
            (fun c => c.id ==
              (DailySale.mk "s1" "c1" "Asha" "2025-01-07" [] 100 60 false).customer_id) =
          some { cust with outstanding_balance :=
                   cust.outstanding_balance +
                     ((DailySale.mk "s1" "c1" "Asha" "2025-01-07" [] 100 60 false).paid_amount
                       - 150) }) ∧
      db'.guest_sales = [] ∧ db'.monthly_bills = [] :=
  (update_sale_payment_spec "s1" 150
      (DB.mk [Customer.mk "c1" "Asha" 40 5000 true]
        [DailySale.mk "s1" "c1" "Asha" "2025-01-07" [] 100 60 false] [] [])).2
    (DailySale.mk "s1" "c1" "Asha" "2025-01-07" [] 100 60 false) rfl

/-- Claim C4: deleting an existing sale moves the owning customer's balance by
exactly `-(total_amount - paid_amount)` and removes the sale record (when
`total_amount = paid_amount` the customer list is untouched entirely);
deleting an unknown id yields NotFound; and a create followed immediately by
a delete of that sale restores every collection exactly. -/
theorem delete_daily_sale_spec (sale_id : String) (db : DB) :
    (db.daily_sales.find? (fun s => s.id == sale_id) = none →
      delete_daily_sale sale_id db = .error .notFound) ∧
    (∀ sale, db.daily_sales.find? (fun s => s.id == sale_id) = some sale →
      ∃ db', delete_daily_sale sale_id db = .ok db' ∧
        db'.daily_sales = db.daily_sales.eraseP (fun s => s.id == sale_id) ∧
        (∀ cust, db.customers.find? (fun c => c.id == sale.customer_id) = some cust →
          db'.customers.find? (fun c => c.id == sale.customer_id) =
            some { cust with outstanding_balance :=
                     cust.outstanding_balance - (sale.total_amount - sale.paid_amount) }) ∧
        (sale.total_amount = sale.paid_amount → db'.customers = db.customers)) ∧
    (∀ newId data db₀ db₁ sale,
      newId ∉ db₀.daily_sales.map DailySale.id →
      create_daily_sale newId data db₀ = .ok (db₁, sale) →
      ∃ db₂, delete_daily_sale newId db₁ = .ok db₂ ∧
        db₂.customers = db₀.customers ∧ db₂.daily_sales = db₀.daily_sales ∧
        db₂.guest_sales = db₀.guest_sales ∧ db₂.monthly_bills = db₀.monthly_bills) := by
  refine ⟨?_, ?_, ?_⟩
  · intro h
    unfold delete_daily_sale
    rw [h]
  · intro sale hfind
    unfold delete_daily_sale
    rw [hfind]
    refine ⟨_, rfl, rfl, ?_, ?_⟩
    · intro cust hc
      have h := find?_updateFirst_hit (f := fun c =>
          { c with outstanding_balance :=
              c.outstanding_balance + -(sale.total_amount - sale.paid_amount) }) hc
        (by simpa using List.find?_some hc)
      rw [h]
      norm_num [sub_eq_add_neg]
    · intro hzero
      show updateFirst _ _ db.customers = db.customers
      refine updateFirst_congr_id ?_ _
      intro a _
      rw [show a.outstanding_balance + -(sale.total_amount - sale.paid_amount)
            = a.outstanding_balance by rw [hzero]; ring]
  · intro newId data db₀ db₁ sale hfresh hcr
    unfold create_daily_sale at hcr
    cases hfind : db₀.customers.find? (fun c => c.id == data.customer_id) with
    | none => rw [hfind] at hcr; exact absurd hcr (by simp)
    | some customer =>
      rw [hfind] at hcr
      simp only [Except.ok.injEq, Prod.mk.injEq] at hcr
      obtain ⟨hdb, hsale⟩ := hcr
      subst hdb
      have hsid : sale.id = newId := by rw [← hsale]
      have hst : sale.total_amount = (data.items.map SaleItem.total).sum := by
        rw [← hsale]
      have hsp : sale.paid_amount = data.paid_amount := by rw [← hsale]
      have hsc : sale.customer_id = data.customer_id := by rw [← hsale]
      have hpre : ∀ b ∈ db₀.daily_sales, (b.id == newId) = false := by
        intro b hb
        refine beq_eq_false_iff_ne.mpr ?_
        intro e
        exact hfresh (e ▸ List.mem_map_of_mem DailySale.id hb)
      have hfind2 : (db₀.daily_sales ++ [sale]).find? (fun s => s.id == newId) =
          some sale :=
        find?_append_cons _ _ hpre (by simp [hsid])
      unfold delete_daily_sale
      simp only [DB.daily_sales, DB.customers]
      rw [hsale, hfind2]
      refine ⟨_, rfl, ?_, ?_, rfl, rfl⟩
      · show updateFirst _ _ (updateFirst _ _ db₀.customers) = db₀.customers
        rw [hsc, hst, hsp, updateFirst_updateFirst]
        · refine updateFirst_congr_id ?_ _
          intro a _
          rw [show a.outstanding_balance +
                ((data.items.map SaleItem.total).sum - data.paid_amount) +
                -((data.items.map SaleItem.total).sum - data.paid_amount)
              = a.outstanding_balance from by ring]
        · exact fun a ha => ha
      · show (db₀.daily_sales ++ [sale]).eraseP (fun s => s.id == newId)
            = db₀.daily_sales
        rw [eraseP_append_cons _ _ hpre (by simp [hsid])]
        exact List.append_nil _

/-- Witness for C4: creating a fully paid sale (`total = paid = 100`) and
deleting it restores the one-customer store exactly. -/
theorem delete_daily_sale_spec_witness :
    ∃ db₂, delete_daily_sale "s2"
        (DB.mk [Customer.mk "c1" "Asha" 40 5000 true]
          [DailySale.mk "s2" "c1" "Asha" "2025-02-01"
            [SaleItem.mk "p1" "Milk" 2 "liter" 50 100] 100 100 true] [] []) = .ok db₂ ∧
      db₂.customers = [Customer.mk "c1" "Asha" 40 5000 true] ∧
      db₂.daily_sales = [] ∧ db₂.guest_sales = [] ∧ db₂.monthly_bills = [] :=
  (delete_daily_sale_spec "s0" (DB.mk [] [] [] [])).2.2 "s2"
    (DailySaleCreate.mk "c1" "2025-02-01" [SaleItem.mk "p1" "Milk" 2 "liter" 50 100] 100)
    (DB.mk [Customer.mk "c1" "Asha" 40 5000 true] [] [] [])
    (DB.mk [Customer.mk "c1" "Asha" 40 5000 true]
      [DailySale.mk "s2" "c1" "Asha" "2025-02-01"
        [SaleItem.mk "p1" "Milk" 2 "liter" 50 100] 100 100 true] [] [])
    (DailySale.mk "s2" "c1" "Asha" "2025-02-01"
      [SaleItem.mk "p1" "Milk" 2 "liter" 50 100] 100 100 true)
    (by simp)
    (by simp [create_daily_sale, updateFirst, List.find?])

/-- Claim C6: the billing window runs from the first day of the requested
month (inclusive) to the first day of the next month (exclusive): for
month 12 the end boundary is January 1 of `year + 1`, for months 1..11 it
is the first day of `month + 1` of the same year. -/
theorem month_window_spec (year : Nat) :
    monthEnd 12 year = monthStart 1 (year + 1) ∧
    ∀ month, 1 ≤ month → month ≤ 11 →
      monthEnd month year = monthStart (month + 1) year := by
  constructor
  · simp [monthEnd, monthStart, pad2, String.append_assoc,
      show (toString (1:Nat) : String) = "1" from rfl]
  · intro month h1 h11
    interval_cases month <;> simp [monthEnd, monthStart, pad2, String.append_assoc]

/-- Witness for C6: the December boundary and the May boundary of 2025. -/
theorem month_window_spec_witness :
    monthEnd 12 2025 = monthStart 1 (2025 + 1) ∧
    monthEnd 5 2025 = monthStart (5 + 1) 2025 :=
  ⟨(month_window_spec 2025).1,
   (month_window_spec 2025).2 5 (by decide) (by decide)⟩

/-- For downward loop counting: the chart loop from `current` to `endd`
produces the points of `current`, `current + 1`, ..., `endd` in order. -/
theorem chartFrom_eq (fmt wd : Int → String) (daily : List DailySale)
    (guest : List GuestSale) (endd : Int) :
    ∀ (n : Nat) (current : Int), (endd + 1 - current).toNat = n →
      chartFrom fmt wd daily guest current endd =
        (List.range n).map
          (fun k : Nat => mkChartPoint fmt wd daily guest (current + (k : Int))) := by
  intro n
  induction n with
  | zero =>
    intro current hn
    have h : ¬ current ≤ endd := by omega
    rw [chartFrom, if_neg h]
    simp
  | succ n ih =>
    intro current hn
    have h : current ≤ endd := by omega
    rw [chartFrom, if_pos h, ih (current + 1) (by omega)]
    rw [List.range_succ_eq_map]
    simp only [List.map_cons, List.map_map]
    congr 1
    · congr 1
      push_cast
      ring
    · refine List.map_congr_left ?_
      intro k _
      simp only [Function.comp_apply]
      congr 1
      push_cast
      ring

/-- Claim C8: for every non-negative day count, the sales chart has exactly
one point per calendar day from `today - days` to `today` inclusive
(`days + 1` points, oldest to newest, point `k` being the day
`today - days + k` with its date string, weekday label, daily+guest revenue
sum and combined transaction count); `days = 0` yields exactly the single
point of the current day. -/
theorem get_sales_chart_spec (days : Nat) (today : Int) (fmt wd : Int → String)
    (daily : List DailySale) (guest : List GuestSale) :
    get_sales_chart days today fmt wd daily guest =
      (List.range (days + 1)).map
        (fun k : Nat => mkChartPoint fmt wd daily guest (today - (days : Int) + (k : Int))) ∧
    (get_sales_chart days today fmt wd daily guest).length = days + 1 ∧
    get_sales_chart 0 today fmt wd daily guest =
      [mkChartPoint fmt wd daily guest today] := by
  have key : ∀ d : Nat, get_sales_chart d today fmt wd daily guest =
      (List.range (d + 1)).map
        (fun k : Nat => mkChartPoint fmt wd daily guest (today - (d : Int) + (k : Int))) := by
    intro d
    unfold get_sales_chart
    exact chartFrom_eq fmt wd daily guest today (d + 1) (today - d) (by omega)
  refine ⟨key days, ?_, ?_⟩
  · rw [key days]
    simp
  · rw [key 0]
    rw [show List.range 1 = [0] from rfl]
    simp

/-- Claim C9: creating a guest sale never modifies any customer record (nor
the daily sales or bills); only the `guest_sales` collection gains the new
record. -/
theorem create_guest_sale_spec (newId today : String) (data : GuestSaleCreate)
    (db : DB) :
    (create_guest_sale newId today data db).1.customers = db.customers ∧
    (create_guest_sale newId today data db).1.daily_sales = db.daily_sales ∧
    (create_guest_sale newId today data db).1.monthly_bills = db.monthly_bills ∧
    (create_guest_sale newId today data db).1.guest_sales =
      db.guest_sales ++ [(create_guest_sale newId today data db).2] :=
  ⟨rfl, rfl, rfl, rfl⟩

/-- Claim C10: sending a bill e-mail mutates at most the bill's `email_sent`
flag: on delivery success exactly the addressed bill record gets
`email_sent := true` with every other field and every other record
unchanged; on a missing bill, missing provider configuration, or delivery
failure an error is surfaced and no state is produced (the handler's only
write happens after a successful send). -/
theorem send_bill_email_spec (bill_id : String) (outcome : Except String String)
    (db : DB) :
    (db.monthly_bills.find? (fun b => b.id == bill_id) = none →
      ∀ apiKey, send_bill_email bill_id apiKey outcome db = .error .notFound) ∧
    (∀ bill, db.monthly_bills.find? (fun b => b.id == bill_id) = some bill →
      send_bill_email bill_id false outcome db = .error .emailNotConfigured ∧
      (∀ e, outcome = .error e →
        send_bill_email bill_id true outcome db = .error (.emailSendFailed e)) ∧
      (∀ mid, outcome = .ok mid →
        ∃ db', send_bill_email bill_id true outcome db = .ok (db', mid) ∧
          db'.customers = db.customers ∧ db'.daily_sales = db.daily_sales ∧
          db'.guest_sales = db.guest_sales ∧
          ∃ l₁ l₂, db.monthly_bills = l₁ ++ bill :: l₂ ∧
            db'.monthly_bills = l₁ ++ { bill with email_sent := true } :: l₂)) := by
  constructor
  · intro h apiKey
    unfold send_bill_email
    rw [h]
  · intro bill hfind
    refine ⟨?_, ?_, ?_⟩
    · unfold send_bill_email
      rw [hfind]
      rfl
    · intro e he
      unfold send_bill_email
      rw [hfind, he]
      rfl
    · intro mid hm
      unfold send_bill_email
      rw [hfind, hm]
      refine ⟨_, rfl, rfl, rfl, rfl, ?_⟩
      obtain ⟨l₁, l₂, hdecomp, hl₁, hb⟩ := find?_some_decomp hfind
      refine ⟨l₁, l₂, hdecomp, ?_⟩
      show updateFirst _ _ db.monthly_bills = _
      rw [hdecomp]
      exact updateFirst_append_cons _ _ _ hl₁ hb

/-- Claim C7: the top-customers and top-products queries return an empty
sequence for `limit = 0`; and each query, for any limit exceeding its own
number of distinct groups (customers of the window's sales for the one,
products for the other, independently), returns all its groups with no
padding, sorted descending by revenue. -/
theorem top_queries_spec (ds : List DailySale) (s e : String) :
    get_top_customers ds s e 0 = [] ∧ get_top_products ds s e 0 = [] ∧
    (∀ n, (custGroups ds s e).length < n →
      (get_top_customers ds s e n).Perm (custGroups ds s e) ∧
      List.Sorted (fun a b => b.total_purchases ≤ a.total_purchases)
        (get_top_customers ds s e n)) ∧
    (∀ n, (prodGroups ds s e).length < n →
      (get_top_products ds s e n).Perm (prodGroups ds s e) ∧
      List.Sorted (fun a b => b.total_revenue ≤ a.total_revenue)
        (get_top_products ds s e n)) := by
  refine ⟨by simp [get_top_customers], by simp [get_top_products], ?_, ?_⟩
  · intro n hc
    have hc' : ((custGroups ds s e).mergeSort
        (fun a b => decide (b.total_purchases ≤ a.total_purchases))).length ≤ n := by
      rw [List.length_mergeSort]
      omega
    constructor
    · unfold get_top_customers
      rw [List.take_of_length_le hc']
      exact List.mergeSort_perm _ _
    · unfold get_top_customers
      rw [List.take_of_length_le hc']
      refine List.Pairwise.imp (fun h => of_decide_eq_true h)
        (List.sorted_mergeSort ?_ ?_ _)
      · intro a b c hab hbc
        exact decide_eq_true (le_trans (of_decide_eq_true hbc) (of_decide_eq_true hab))
      · intro a b
        rcases le_total b.total_purchases a.total_purchases with h | h
        · simp [h]
        · simp [h]
  · intro n hp
    have hp' : ((prodGroups ds s e).mergeSort
        (fun a b => decide (b.total_revenue ≤ a.total_revenue))).length ≤ n := by
      rw [List.length_mergeSort]
      omega
    constructor
    · unfold get_top_products
      rw [List.take_of_length_le hp']
      exact List.mergeSort_perm _ _
    · unfold get_top_products
      rw [List.take_of_length_le hp']
      refine List.Pairwise.imp (fun h => of_decide_eq_true h)
        (List.sorted_mergeSort ?_ ?_ _)
      · intro a b c hab hbc
        exact decide_eq_true (le_trans (of_decide_eq_true hbc) (of_decide_eq_true hab))
      · intro a b
        rcases le_total b.total_revenue a.total_revenue with h | h
        · simp [h]
        · simp [h]

/-! ### The monthly billing generator -/

theorem billKey_customer {cid : String} {m y : Nat} {b : MonthlyBill}
    (h : billKey cid m y b = true) : b.customer_id = cid := by
  simp only [billKey, Bool.and_eq_true, beq_iff_eq] at h
  exact h.1.1

theorem billKey_mkBillData_self (c : Customer) (m y : Nat) (now : String)
    (sales : List DailySale) (bid : String) :
    billKey c.id m y (mkBillData c m y now sales bid) = true := by
  simp [billKey, mkBillData]

theorem billKey_mkBillData_of_ne {cid : String} {c : Customer} (m y : Nat)
    (now : String) (sales : List DailySale) (bid : String) (h : c.id ≠ cid) :
    billKey cid m y (mkBillData c m y now sales bid) = false := by
  simp [billKey, mkBillData, h]

theorem genLoop_cons_skip {m y : Nat} {now : String} {fresh : Nat → String}
    {ds : List DailySale} {s e : String} {c : Customer} {cs : List Customer}
    {bills : List MonthlyBill} {k : Nat}
    (hS : (salesInWindow ds c.id s e).isEmpty = true) :
    genLoop m y now fresh ds s e (c :: cs) bills k =
      genLoop m y now fresh ds s e cs bills k := by
  simp [genLoop, hS]

theorem genLoop_cons_existing {m y : Nat} {now : String} {fresh : Nat → String}
    {ds : List DailySale} {s e : String} {c : Customer} {cs : List Customer}
    {bills : List MonthlyBill} {k : Nat} {existing : MonthlyBill}
    (hS : (salesInWindow ds c.id s e).isEmpty = false)
    (hfind : bills.find? (billKey c.id m y) = some existing) :
    genLoop m y now fresh ds s e (c :: cs) bills k =
      ((genLoop m y now fresh ds s e cs
          (updateFirst (billKey c.id m y)
            (fun b => mkBillData c m y now (salesInWindow ds c.id s e) b.id) bills)
          k).1,
       mkBillData c m y now (salesInWindow ds c.id s e) existing.id ::
         (genLoop m y now fresh ds s e cs
            (updateFirst (billKey c.id m y)
              (fun b => mkBillData c m y now (salesInWindow ds c.id s e) b.id) bills)
            k).2) := by
  simp [genLoop, hS, hfind]

theorem genLoop_cons_new {m y : Nat} {now : String} {fresh : Nat → String}
    {ds : List DailySale} {s e : String} {c : Customer} {cs : List Customer}
    {bills : List MonthlyBill} {k : Nat}
    (hS : (salesInWindow ds c.id s e).isEmpty = false)
    (hfind : bills.find? (billKey c.id m y) = none) :
    genLoop m y now fresh ds s e (c :: cs) bills k =
      ((genLoop m y now fresh ds s e cs
          (bills ++ [mkBillData c m y now (salesInWindow ds c.id s e) (fresh k)])
          (k + 1)).1,
       mkBillData c m y now (salesInWindow ds c.id s e) (fresh k) ::
         (genLoop m y now fresh ds s e cs
            (bills ++ [mkBillData c m y now (salesInWindow ds c.id s e) (fresh k)])
            (k + 1)).2) := by
  simp [genLoop, hS, hfind]

/-- Frame: the loop over customers whose ids all differ from `cid` emits no
response entry for `cid` and leaves the bills of key `(cid, m, y)` exactly
as they were. -/
theorem genLoop_frame (m y : Nat) (now : String) (fresh : Nat → String)
    (ds : List DailySale) (s e : String) (cid : String) :
    ∀ (cs : List Customer) (bills : List MonthlyBill) (k : Nat),
      (∀ c ∈ cs, (c.id == cid) = false) →
      (genLoop m y now fresh ds s e cs bills k).2.filter
          (fun b => b.customer_id == cid) = [] ∧
      (genLoop m y now fresh ds s e cs bills k).1.filter (billKey cid m y) =
        bills.filter (billKey cid m y) ∧
      (genLoop m y now fresh ds s e cs bills k).1.find? (billKey cid m y) =
        bills.find? (billKey cid m y) := by
  intro cs
  induction cs with
  | nil => intro bills k _; simp [genLoop]
  | cons c' cs ih =>
    intro bills k h
    have hc' : (c'.id == cid) = false := h c' (by simp)
    have hne : c'.id ≠ cid := beq_eq_false_iff_ne.mp hc'
    have hcs : ∀ c ∈ cs, (c.id == cid) = false := fun c hc => h c (by simp [hc])
    have hframe : ∀ b, billKey c'.id m y b = true →
        billKey cid m y b = false ∧
        billKey cid m y (mkBillData c' m y now (salesInWindow ds c'.id s e) b.id)
          = false := by
      intro b hb
      refine ⟨?_, billKey_mkBillData_of_ne m y now _ _ hne⟩
      have hbc := billKey_customer hb
      simp [billKey, hbc, hne]
    cases hS : (salesInWindow ds c'.id s e).isEmpty with
    | true =>
      rw [genLoop_cons_skip hS]
      exact ih bills k hcs
    | false =>
      cases hfind : bills.find? (billKey c'.id m y) with
      | some existing =>
        rw [genLoop_cons_existing hS hfind]
        obtain ⟨h1, h2, h3⟩ := ih
          (updateFirst (billKey c'.id m y)
            (fun b => mkBillData c' m y now (salesInWindow ds c'.id s e) b.id) bills)
          k hcs
        refine ⟨?_, ?_, ?_⟩
        · rw [List.filter_cons_of_neg, h1]
          simp [mkBillData, hc']
        · rw [h2, filter_updateFirst_frame hframe]
        · rw [h3, find?_updateFirst_frame hframe]
      | none =>
        rw [genLoop_cons_new hS hfind]
        obtain ⟨h1, h2, h3⟩ := ih
          (bills ++ [mkBillData c' m y now (salesInWindow ds c'.id s e) (fresh k)])
          (k + 1) hcs
        have hgenkey : billKey cid m y
            (mkBillData c' m y now (salesInWindow ds c'.id s e) (fresh k)) = false :=
          billKey_mkBillData_of_ne m y now _ _ hne
        refine ⟨?_, ?_, ?_⟩
        · rw [List.filter_cons_of_neg, h1]
          simp [mkBillData, hc']
        · rw [h2, List.filter_append]
          simp [hgenkey]
        · rw [h3, List.find?_append]
          simp [hgenkey]

/-- Main loop characterization: for a customer `c` appearing in the
(distinct-id) customer list, the loop's response list and final bill
collection at `c`'s key are exactly those of the one upsert the algorithm
describes: skip on no sales, overwrite-in-place keeping the stored id on an
existing bill, insert with a fresh id otherwise. -/
theorem genLoop_spec (m y : Nat) (now : String) (fresh : Nat → String)
    (ds : List DailySale) (s e : String) :
    ∀ (cs : List Customer), (cs.map Customer.id).Nodup →
    ∀ c, c ∈ cs →
    ∀ (bills : List MonthlyBill) (k : Nat),
      (bills.filter (billKey c.id m y)).length ≤ 1 →
      ((salesInWindow ds c.id s e).isEmpty = true →
        (genLoop m y now fresh ds s e cs bills k).2.filter
          (fun b => b.customer_id == c.id) = [] ∧
        (genLoop m y now fresh ds s e cs bills k).1.filter (billKey c.id m y) =
          bills.filter (billKey c.id m y)) ∧
      ((salesInWindow ds c.id s e).isEmpty = false →
        (∀ existing, bills.find? (billKey c.id m y) = some existing →
          (genLoop m y now fresh ds s e cs bills k).2.filter
            (fun b => b.customer_id == c.id) =
            [mkBillData c m y now (salesInWindow ds c.id s e) existing.id] ∧
          (genLoop m y now fresh ds s e cs bills k).1.filter (billKey c.id m y) =
            [mkBillData c m y now (salesInWindow ds c.id s e) existing.id]) ∧
        (bills.find? (billKey c.id m y) = none →
          ∃ j,
            (genLoop m y now fresh ds s e cs bills k).2.filter
              (fun b => b.customer_id == c.id) =
              [mkBillData c m y now (salesInWindow ds c.id s e) (fresh j)] ∧
            (genLoop m y now fresh ds s e cs bills k).1.filter (billKey c.id m y) =
              [mkBillData c m y now (salesInWindow ds c.id s e) (fresh j)])) := by
  intro cs
  induction cs with
  | nil =>
    intro _ c hc
    exact absurd hc (List.not_mem_nil c)
  | cons c' cs ih =>
    intro nd c hc bills k hlen
    simp only [List.map_cons, List.nodup_cons, List.mem_map] at nd
    obtain ⟨hnotin, ndcs⟩ := nd
    rcases List.mem_cons.mp hc with rfl | htail
    · -- the head customer is the one under scrutiny
      have hcs : ∀ a ∈ cs, (a.id == c.id) = false := by
        intro a ha
        refine beq_eq_false_iff_ne.mpr ?_
        intro hEq
        exact hnotin ⟨a, ha, hEq⟩
      cases hS : (salesInWindow ds c.id s e).isEmpty with
      | true =>
        rw [genLoop_cons_skip hS]
        refine ⟨fun _ => ?_, fun hS' => Bool.noConfusion hS'⟩
        obtain ⟨h1, h2, _⟩ := genLoop_frame m y now fresh ds s e c.id cs bills k hcs
        exact ⟨h1, h2⟩
      | false =>
        refine ⟨fun hS' => Bool.noConfusion hS', fun _ => ⟨?_, ?_⟩⟩
        · intro existing hfind
          rw [genLoop_cons_existing hS hfind]
          obtain ⟨h1, h2, _⟩ := genLoop_frame m y now fresh ds s e c.id cs
            (updateFirst (billKey c.id m y)
              (fun b => mkBillData c m y now (salesInWindow ds c.id s e) b.id) bills)
            k hcs
          obtain ⟨l₁, l₂, hdec, hpre, hp⟩ := find?_some_decomp hfind
          have hupd : updateFirst (billKey c.id m y)
              (fun b => mkBillData c m y now (salesInWindow ds c.id s e) b.id) bills =
              l₁ ++ mkBillData c m y now (salesInWindow ds c.id s e) existing.id :: l₂ := by
            rw [hdec]
            exact updateFirst_append_cons _ _ _ hpre hp
          have hfl₁ : l₁.filter (billKey c.id m y) = [] :=
            List.filter_eq_nil_iff.mpr (fun a ha => by simp [hpre a ha])
          have hfl₂ : l₂.filter (billKey c.id m y) = [] := by
            have hlen' := hlen
            rw [hdec, List.filter_append, hfl₁, List.filter_cons_of_pos hp] at hlen'
            simp only [List.nil_append, List.length_cons] at hlen'
            exact List.length_eq_zero.mp (by omega)
          constructor
          · rw [List.filter_cons_of_pos (by simp [mkBillData]), h1]
          · rw [h2, hupd, List.filter_append, hfl₁,
              List.filter_cons_of_pos (billKey_mkBillData_self c m y now _ _), hfl₂]
            simp
        · intro hfind
          rw [genLoop_cons_new hS hfind]
          refine ⟨k, ?_, ?_⟩
          obtain ⟨h1, h2, _⟩ := genLoop_frame m y now fresh ds s e c.id cs
            (bills ++ [mkBillData c m y now (salesInWindow ds c.id s e) (fresh k)])
            (k + 1) hcs
          · rw [List.filter_cons_of_pos (by simp [mkBillData]), h1]
          · obtain ⟨h1, h2, _⟩ := genLoop_frame m y now fresh ds s e c.id cs
              (bills ++ [mkBillData c m y now (salesInWindow ds c.id s e) (fresh k)])
              (k + 1) hcs
            have hbf : bills.filter (billKey c.id m y) = [] :=
              List.filter_eq_nil_iff.mpr (List.find?_eq_none.mp hfind)
            rw [h2, List.filter_append, hbf,
              List.filter_cons_of_pos (billKey_mkBillData_self c m y now _ _)]
            simp
    · -- the customer under scrutiny sits in the tail
      have hne : c'.id ≠ c.id := by
        intro hEq
        exact hnotin ⟨c, htail, hEq.symm⟩
      have hframe : ∀ b, billKey c'.id m y b = true →
          billKey c.id m y b = false ∧
          billKey c.id m y (mkBillData c' m y now (salesInWindow ds c'.id s e) b.id)
            = false := by
        intro b hb
        refine ⟨?_, billKey_mkBillData_of_ne m y now _ _ hne⟩
        have hbc := billKey_customer hb
        simp [billKey, hbc, hne]
      have hgenne : ∀ bid, ((mkBillData c' m y now (salesInWindow ds c'.id s e)
          bid).customer_id == c.id) = false := by
        intro bid
        simpa [mkBillData] using hne
      cases hS' : (salesInWindow ds c'.id s e).isEmpty with
      | true =>
        rw [genLoop_cons_skip hS']
        exact ih ndcs c htail bills k hlen
      | false =>
        cases hfind' : bills.find? (billKey c'.id m y) with
        | some ex' =>
          rw [genLoop_cons_existing hS' hfind']
          have hfilter_eq : (updateFirst (billKey c'.id m y)
              (fun b => mkBillData c' m y now (salesInWindow ds c'.id s e) b.id)
              bills).filter (billKey c.id m y) = bills.filter (billKey c.id m y) :=
            filter_updateFirst_frame hframe _
          have hfind_eq : (updateFirst (billKey c'.id m y)
              (fun b => mkBillData c' m y now (salesInWindow ds c'.id s e) b.id)
              bills).find? (billKey c.id m y) = bills.find? (billKey c.id m y) :=
            find?_updateFirst_frame hframe _
          have ihc := ih ndcs c htail
            (updateFirst (billKey c'.id m y)
              (fun b => mkBillData c' m y now (salesInWindow ds c'.id s e) b.id) bills)
            k (by rw [hfilter_eq]; exact hlen)
          constructor
          · intro hSc
            obtain ⟨g1, g2⟩ := ihc.1 hSc
            exact ⟨by rw [List.filter_cons_of_neg (by simp [hgenne]), g1],
                   by rw [g2, hfilter_eq]⟩
          · intro hSc
            obtain ⟨gsome, gnone⟩ := ihc.2 hSc
            constructor
            · intro existing hfind
              obtain ⟨g1, g2⟩ := gsome existing (by rw [hfind_eq]; exact hfind)
              exact ⟨by rw [List.filter_cons_of_neg (by simp [hgenne]), g1], g2⟩
            · intro hfind
              obtain ⟨j, g1, g2⟩ := gnone (by rw [hfind_eq]; exact hfind)
              exact ⟨j, by rw [List.filter_cons_of_neg (by simp [hgenne]), g1], g2⟩
        | none =>
          rw [genLoop_cons_new hS' hfind']
          have hgenkey : billKey c.id m y
              (mkBillData c' m y now (salesInWindow ds c'.id s e) (fresh k)) = false :=
            billKey_mkBillData_of_ne m y now _ _ hne
          have hfilter_eq : (bills ++ [mkBillData c' m y now
              (salesInWindow ds c'.id s e) (fresh k)]).filter (billKey c.id m y) =
              bills.filter (billKey c.id m y) := by
            rw [List.filter_append]
            simp [hgenkey]
          have hfind_eq : (bills ++ [mkBillData c' m y now
              (salesInWindow ds c'.id s e) (fresh k)]).find? (billKey c.id m y) =
              bills.find? (billKey c.id m y) := by
            rw [List.find?_append]
            simp [hgenkey]
          have ihc := ih ndcs c htail
            (bills ++ [mkBillData c' m y now (salesInWindow ds c'.id s e) (fresh k)])
            (k + 1) (by rw [hfilter_eq]; exact hlen)
          constructor
          · intro hSc
            obtain ⟨g1, g2⟩ := ihc.1 hSc
            exact ⟨by rw [List.filter_cons_of_neg (by simp [hgenne]), g1],
                   by rw [g2, hfilter_eq]⟩
          · intro hSc
            obtain ⟨gsome, gnone⟩ := ihc.2 hSc
            constructor
            · intro existing hfind
              obtain ⟨g1, g2⟩ := gsome existing (by rw [hfind_eq]; exact hfind)
              exact ⟨by rw [List.filter_cons_of_neg (by simp [hgenne]), g1], g2⟩
            · intro hfind
              obtain ⟨j, g1, g2⟩ := gnone (by rw [hfind_eq]; exact hfind)
              exact ⟨j, by rw [List.filter_cons_of_neg (by simp [hgenne]), g1], g2⟩

/-- Claim C5: monthly bill generation, for every active customer `c` (under
uuid-uniqueness of customer ids and at most one stored bill per
`(customer, month, year)` key): with no sales in the window, no response
entry for `c` is emitted and `c`'s stored bills are untouched; with at
least one sale, exactly one bill for `c` is emitted and stored, carrying
`total_sales`, `total_paid`, `balance_due` and `sales_count` computed from
the matching sales and `email_sent` reset to false — keeping the stored
identifier when a bill for the key already existed, and carrying a freshly
generated identifier otherwise. -/
theorem generate_monthly_bills_spec (month year : Nat) (now : String)
    (fresh : Nat → String) (db : DB)
    (hnd : ((db.customers.filter (fun c => c.is_active)).map Customer.id).Nodup) :
    ∀ c ∈ db.customers, c.is_active = true →
    (db.monthly_bills.filter (billKey c.id month year)).length ≤ 1 →
    ((salesInWindow db.daily_sales c.id (monthStart month year)
        (monthEnd month year)).isEmpty = true →
      (generate_monthly_bills month year now fresh db).2.filter
        (fun b => b.customer_id == c.id) = [] ∧
      (generate_monthly_bills month year now fresh db).1.monthly_bills.filter
        (billKey c.id month year) = db.monthly_bills.filter (billKey c.id month year)) ∧
    ((salesInWindow db.daily_sales c.id (monthStart month year)
        (monthEnd month year)).isEmpty = false →
      (∀ existing, db.monthly_bills.find? (billKey c.id month year) = some existing →
        (generate_monthly_bills month year now fresh db).2.filter
          (fun b => b.customer_id == c.id) =
          [mkBillData c month year now
            (salesInWindow db.daily_sales c.id (monthStart month year)
              (monthEnd month year)) existing.id] ∧
        (generate_monthly_bills month year now fresh db).1.monthly_bills.filter
          (billKey c.id month year) =
          [mkBillData c month year now
            (salesInWindow db.daily_sales c.id (monthStart month year)
              (monthEnd month year)) existing.id]) ∧
      (db.monthly_bills.find? (billKey c.id month year) = none →
        ∃ j,
          (generate_monthly_bills month year now fresh db).2.filter
            (fun b => b.customer_id == c.id) =
            [mkBillData c month year now
              (salesInWindow db.daily_sales c.id (monthStart month year)
                (monthEnd month year)) (fresh j)] ∧
          (generate_monthly_bills month year now fresh db).1.monthly_bills.filter
            (billKey c.id month year) =
            [mkBillData c month year now
              (salesInWindow db.daily_sales c.id (monthStart month year)
                (monthEnd month year)) (fresh j)])) := by
  intro c hcmem hact hlen
  have hc : c ∈ db.customers.filter (fun c => c.is_active) :=
    List.mem_filter.mpr ⟨hcmem, by simp [hact]⟩
  exact genLoop_spec month year now fresh db.daily_sales
    (monthStart month year) (monthEnd month year)
    (db.customers.filter (fun c => c.is_active)) hnd c hc db.monthly_bills 0 hlen

/-- Witness for C5: a two-customer store where the first customer has two
March 2025 sales and a stale, already-e-mailed bill for that month; the run
overwrites that bill in place. -/
theorem generate_monthly_bills_spec_witness :
    (generate_monthly_bills 3 2025 "t1" (fun _ => "nb")
        (DB.mk
          [Customer.mk "c1" "Asha" 90 5000 true, Customer.mk "c2" "Ben" 0 5000 true]
          [DailySale.mk "s1" "c1" "Asha" "2025-03-02" [] 100 60 false,
           DailySale.mk "s2" "c1" "Asha" "2025-03-15" [] 50 0 false]
          []
          [MonthlyBill.mk "b0" "c1" "Asha" 3 2025 1 1 0 1 "told" true])).2.filter
      (fun b => b.customer_id == "c1") =
      [mkBillData (Customer.mk "c1" "Asha" 90 5000 true) 3 2025 "t1"
        (salesInWindow
          [DailySale.mk "s1" "c1" "Asha" "2025-03-02" [] 100 60 false,
           DailySale.mk "s2" "c1" "Asha" "2025-03-15" [] 50 0 false]
          "c1" (monthStart 3 2025) (monthEnd 3 2025)) "b0"] ∧
    (generate_monthly_bills 3 2025 "t1" (fun _ => "nb")
        (DB.mk
          [Customer.mk "c1" "Asha" 90 5000 true, Customer.mk "c2" "Ben" 0 5000 true]
          [DailySale.mk "s1" "c1" "Asha" "2025-03-02" [] 100 60 false,
           DailySale.mk "s2" "c1" "Asha" "2025-03-15" [] 50 0 false]
          []
          [MonthlyBill.mk "b0" "c1" "Asha" 3 2025 1 1 0 1 "told" true])).1.monthly_bills.filter
      (billKey "c1" 3 2025) =
      [mkBillData (Customer.mk "c1" "Asha" 90 5000 true) 3 2025 "t1"
        (salesInWindow
          [DailySale.mk "s1" "c1" "Asha" "2025-03-02" [] 100 60 false,
           DailySale.mk "s2" "c1" "Asha" "2025-03-15" [] 50 0 false]
          "c1" (monthStart 3 2025) (monthEnd 3 2025)) "b0"] :=
  ((generate_monthly_bills_spec 3 2025 "t1" (fun _ => "nb")
      (DB.mk
        [Customer.mk "c1" "Asha" 90 5000 true, Customer.mk "c2" "Ben" 0 5000 true]
        [DailySale.mk "s1" "c1" "Asha" "2025-03-02" [] 100 60 false,
         DailySale.mk "s2" "c1" "Asha" "2025-03-15" [] 50 0 false]
        []
        [MonthlyBill.mk "b0" "c1" "Asha" 3 2025 1 1 0 1 "told" true])
      (by decide)
      (Customer.mk "c1" "Asha" 90 5000 true) (List.Mem.head _) rfl
      (by decide)).2 (by decide)).1
    (MonthlyBill.mk "b0" "c1" "Asha" 3 2025 1 1 0 1 "told" true) rfl

/-- Witness for C7: a window with exactly one customer group but two
product groups; the customer query is settled with limit 2 (above its own
group count of 1, though below no product bound) and the product query
independently with limit 3 (above its group count of 2). -/
theorem top_queries_spec_witness :
    (custGroups
        [DailySale.mk "s1" "c1" "Asha" "2025-03-02"
           [SaleItem.mk "p1" "Milk" 2 "liter" 50 100] 100 100 true,
         DailySale.mk "s2" "c1" "Asha" "2025-03-10"
           [SaleItem.mk "p2" "Curd" 1 "kg" 60 60] 60 0 false]
        "2025-03-01" "2025-04-01").length < 2 ∧
    ((get_top_customers
        [DailySale.mk "s1" "c1" "Asha" "2025-03-02"
           [SaleItem.mk "p1" "Milk" 2 "liter" 50 100] 100 100 true,
         DailySale.mk "s2" "c1" "Asha" "2025-03-10"
           [SaleItem.mk "p2" "Curd" 1 "kg" 60 60] 60 0 false]
        "2025-03-01" "2025-04-01" 2).Perm
      (custGroups
        [DailySale.mk "s1" "c1" "Asha" "2025-03-02"
           [SaleItem.mk "p1" "Milk" 2 "liter" 50 100] 100 100 true,
         DailySale.mk "s2" "c1" "Asha" "2025-03-10"
           [SaleItem.mk "p2" "Curd" 1 "kg" 60 60] 60 0 false]
        "2025-03-01" "2025-04-01") ∧
     List.Sorted (fun a b => b.total_purchases ≤ a.total_purchases)
      (get_top_customers
        [DailySale.mk "s1" "c1" "Asha" "2025-03-02"
           [SaleItem.mk "p1" "Milk" 2 "liter" 50 100] 100 100 true,
         DailySale.mk "s2" "c1" "Asha" "2025-03-10"
           [SaleItem.mk "p2" "Curd" 1 "kg" 60 60] 60 0 false]
        "2025-03-01" "2025-04-01" 2)) ∧
    (prodGroups
        [DailySale.mk "s1" "c1" "Asha" "2025-03-02"
           [SaleItem.mk "p1" "Milk" 2 "liter" 50 100] 100 100 true,
         DailySale.mk "s2" "c1" "Asha" "2025-03-10"
           [SaleItem.mk "p2" "Curd" 1 "kg" 60 60] 60 0 false]
        "2025-03-01" "2025-04-01").length < 3 ∧
    ((get_top_products
        [DailySale.mk "s1" "c1" "Asha" "2025-03-02"
           [SaleItem.mk "p1" "Milk" 2 "liter" 50 100] 100 100 true,
         DailySale.mk "s2" "c1" "Asha" "2025-03-10"
           [SaleItem.mk "p2" "Curd" 1 "kg" 60 60] 60 0 false]
        "2025-03-01" "2025-04-01" 3).Perm
      (prodGroups
        [DailySale.mk "s1" "c1" "Asha" "2025-03-02"
           [SaleItem.mk "p1" "Milk" 2 "liter" 50 100] 100 100 true,
         DailySale.mk "s2" "c1" "Asha" "2025-03-10"
           [SaleItem.mk "p2" "Curd" 1 "kg" 60 60] 60 0 false]
        "2025-03-01" "2025-04-01") ∧
     List.Sorted (fun a b => b.total_revenue ≤ a.total_revenue)
      (get_top_products
        [DailySale.mk "s1" "c1" "Asha" "2025-03-02"
           [SaleItem.mk "p1" "Milk" 2 "liter" 50 100] 100 100 true,
         DailySale.mk "s2" "c1" "Asha" "2025-03-10"
           [SaleItem.mk "p2" "Curd" 1 "kg" 60 60] 60 0 false]
        "2025-03-01" "2025-04-01" 3)) :=
  ⟨by decide,
   (top_queries_spec
      [DailySale.mk "s1" "c1" "Asha" "2025-03-02"
         [SaleItem.mk "p1" "Milk" 2 "liter" 50 100] 100 100 true,
       DailySale.mk "s2" "c1" "Asha" "2025-03-10"
         [SaleItem.mk "p2" "Curd" 1 "kg" 60 60] 60 0 false]
      "2025-03-01" "2025-04-01").2.2.1 2 (by decide),
   by decide,
   (top_queries_spec
      [DailySale.mk "s1" "c1" "Asha" "2025-03-02"
         [SaleItem.mk "p1" "Milk" 2 "liter" 50 100] 100 100 true,
       DailySale.mk "s2" "c1" "Asha" "2025-03-10"
         [SaleItem.mk "p2" "Curd" 1 "kg" 60 60] 60 0 false]
      "2025-03-01" "2025-04-01").2.2.2 3 (by decide)⟩


/-- Witness for C10: a successful send on a one-bill store flips only the
flag. -/
theorem send_bill_email_spec_witness :
    ∃ db', send_bill_email "b1" true (.ok "msg7")
        (DB.mk [] [] [] [MonthlyBill.mk "b1" "c1" "Asha" 1 2025 150 100 50 2 "t0" false])
        = .ok (db', "msg7") ∧
      db'.customers = [] ∧ db'.daily_sales = [] ∧ db'.guest_sales = [] ∧
      ∃ l₁ l₂,
        [MonthlyBill.mk "b1" "c1" "Asha" 1 2025 150 100 50 2 "t0" false] =
          l₁ ++ MonthlyBill.mk "b1" "c1" "Asha" 1 2025 150 100 50 2 "t0" false :: l₂ ∧
        db'.monthly_bills =
          l₁ ++ { MonthlyBill.mk "b1" "c1" "Asha" 1 2025 150 100 50 2 "t0" false with
                    email_sent := true } :: l₂ :=
  ((send_bill_email_spec "b1" (.ok "msg7")
      (DB.mk [] [] [] [MonthlyBill.mk "b1" "c1" "Asha" 1 2025 150 100 50 2 "t0" false])).2
    (MonthlyBill.mk "b1" "c1" "Asha" 1 2025 150 100 50 2 "t0" false) rfl).2.2
    "msg7" rfl

end Dairy
